import Mathlib

-- Shallow embedding of the Music_Beats_Dodge audio-driven spawn engine
-- (audio.py, obstacles.py, player.py, game.py; constants from the config block
-- reproduced in one_file_version.py).  Real-valued (float) quantities are
-- modelled exactly over ℚ, timestamps are ℤ milliseconds, and every use of the
-- process-wide RNG is supplied through an explicit oracle argument: a draw of
-- np.random.randint(0, hi) with oracle value r is modelled as r % hi, and a
-- draw of np.random.choice(l) with oracle value r as l[r % len(l)].

namespace MusicDodge

-- Config constants.
def SCREEN_W : ℚ := 800
def LANES : ℕ := 10
def PLAYER_X : ℚ := 100
def OBSTACLE_SPEED : ℚ := 300
def SPAWN_AHEAD_PIXELS : ℚ := 900
def WINDOW_MS : ℕ := 100
def ENERGY_BASELINE_BUFFER : ℕ := 50
def LOW_TH : ℚ := 105/100
def MEDIUM_TH : ℚ := 15/10
def HIGH_TH : ℚ := 22/10
def LOW_SIZES : List ℕ := [1, 1, 2]
def MEDIUM_SIZES : List ℕ := [2, 3]
def HIGH_SIZES : List ℕ := [4, 5, 6]
def MIN_SPAWN_INTERVAL_MS : ℤ := 150
def HEAVY_COOLDOWN_MS : ℤ := 600

-- The 1e-9 guard used by AudioAnalyzer.
def EPS : ℚ := 1/1000000000

-- AudioAnalyzer.__init__, peak normalization step.  np.max over an empty
-- array raises ValueError, modelled as none; the `or 1.0` idiom replaces a
-- 0.0 peak by 1.0.  Folding max from 0 over the absolute values equals the
-- true maximum because every |s| is nonnegative.
def normalizeSamples (raw : List ℚ) : Option (List ℚ) :=
  match raw with
  | [] => none
  | _ :: _ =>
    let maxv0 := (raw.map (fun s => |s|)).foldl max 0
    let maxv := if maxv0 = 0 then 1 else maxv0
    some (raw.map (fun s => s / maxv))

-- self.samples_per_window = int(self.sample_rate * (window_ms / 1000.0)):
-- truncation of a nonnegative value, i.e. floor division.
def samplesPerWindow (sample_rate window_ms : ℕ) : ℕ := sample_rate * window_ms / 1000

-- self.num_windows = max(1, int(math.ceil(len(samples) / float(W)))).
def numWindowsOf (sampleCount W : ℕ) : ℕ := max 1 ((sampleCount + W - 1) / W)

-- The window slice samples[i*W : i*W + W].
def windowSlice (samples : List ℚ) (W i : ℕ) : List ℚ := (samples.drop (i * W)).take W

-- self.energy[i] = float(np.sum(window * window) / (len(window) + 1e-9)).
def energyAt (samples : List ℚ) (W i : ℕ) : ℚ :=
  ((windowSlice samples W i).map (fun s => s * s)).sum
    / (((windowSlice samples W i).length : ℚ) + EPS)

def computeEnergy (samples : List ℚ) (W n : ℕ) : List ℚ :=
  (List.range n).map (energyAt samples W)

-- AudioAnalyzer._compute_running_baseline: running sum over a deque that is
-- popped from the front once it holds more than N entries.
def baselineAux (N : ℕ) : List ℚ → List ℚ → ℚ → List ℚ
  | [], _, _ => []
  | e :: rest, dq, cum =>
    let dq1 := dq ++ [e]
    let cum1 := cum + e
    if N < dq1.length then
      (cum1 - dq1.headI) / ((dq1.tail.length : ℚ)) ::
        baselineAux N rest dq1.tail (cum1 - dq1.headI)
    else
      cum1 / ((dq1.length : ℚ)) :: baselineAux N rest dq1 cum1

def compute_running_baseline (N : ℕ) (energy : List ℚ) : List ℚ :=
  (baselineAux N energy [] 0).map (fun b => b + EPS)

structure Analyzer where
  window_ms : ℕ
  sample_rate : ℕ
  samples : List ℚ
  samples_per_window : ℕ
  num_windows : ℕ
  energy : List ℚ
  baseline : List ℚ
deriving DecidableEq, Repr

def defaultAnalyzer : Analyzer := ⟨0, 0, [], 0, 0, [], []⟩

instance : Inhabited Analyzer := ⟨defaultAnalyzer⟩

-- AudioAnalyzer.__init__ over an already mono sample buffer.  Construction
-- fails (Python raises) when the buffer is empty (np.max of an empty array)
-- or when samples_per_window is 0 (division by float zero in num_windows).
def mkAnalyzer (sample_rate : ℕ) (raw : List ℚ) (window_ms : ℕ) : Option Analyzer :=
  match normalizeSamples raw with
  | none => none
  | some samples =>
    let W := samplesPerWindow sample_rate window_ms
    if W = 0 then none
    else
      let n := numWindowsOf samples.length W
      let E := computeEnergy samples W n
      some ⟨window_ms, sample_rate, samples, W, n, E,
            compute_running_baseline ENERGY_BASELINE_BUFFER E⟩

-- Python int() truncates toward zero.
def truncQ (q : ℚ) : ℤ := if 0 ≤ q then ⌊q⌋ else ⌈q⌉

-- clamp(v, a, b) = max(a, min(b, v)).
def clamp (v a b : ℤ) : ℤ := max a (min b v)

def get_window_index_for_ms (a : Analyzer) (ms : ℚ) : ℤ :=
  clamp (truncQ (ms / (a.window_ms : ℚ))) 0 ((a.num_windows : ℤ) - 1)

-- obstacles.py.
structure Obstacle where
  lane_start : ℕ
  lane_count : ℕ
  x : ℚ
  width : ℚ := 40
  passed : Bool := false
deriving DecidableEq, Repr

instance : Inhabited Obstacle := ⟨⟨0, 1, 0, 40, false⟩⟩

def Obstacle.update (o : Obstacle) (dt : ℚ) : Obstacle :=
  { o with x := o.x - OBSTACLE_SPEED * dt }

structure OMState where
  obstacles : List Obstacle
  last_spawn_ms : ℤ
  last_heavy_ms : ℤ
deriving DecidableEq, Repr

def initialOM : OMState := ⟨[], -10000, -10000⟩

def OMState.spawn (st : OMState) (lane_start lane_count : ℕ) (current_time_ms : ℤ) : OMState :=
  { obstacles := st.obstacles ++
      [{ lane_start := lane_start, lane_count := lane_count, x := SCREEN_W + SPAWN_AHEAD_PIXELS }],
    last_spawn_ms := current_time_ms,
    last_heavy_ms := if 4 ≤ lane_count then current_time_ms else st.last_heavy_ms }

def OMState.updateField (st : OMState) (dt : ℚ) : OMState :=
  { st with obstacles :=
      (st.obstacles.map (fun o => o.update dt)).filter (fun o => decide (-50 < o.x + o.width)) }

-- Distance from the player's lane to the nearest edge of the obstacle's lane
-- span, exactly as computed inline by mark_passed_and_count.
def laneDist (player_lane : ℤ) (o : Obstacle) : ℤ :=
  let top : ℤ := o.lane_start
  let bottom : ℤ := (o.lane_start : ℤ) + (o.lane_count : ℤ) - 1
  if player_lane < top then top - player_lane
  else if bottom < player_lane then player_lane - bottom
  else 0

def mark_passed_and_count (player_lane : ℤ) : List Obstacle → ℕ × List Obstacle
  | [] => (0, [])
  | o :: rest =>
    let r := mark_passed_and_count player_lane rest
    if o.passed = false ∧ o.x + o.width < PLAYER_X then
      ((if laneDist player_lane o ≤ 1 then 1 else 0) + r.1, { o with passed := true } :: r.2)
    else
      (r.1, o :: r.2)

-- game.py, Game.spawn_logic.
inductive Tier
  | low
  | medium
  | high
deriving DecidableEq, Repr

def sizesFor : Tier → List ℕ
  | Tier.low => LOW_SIZES
  | Tier.medium => MEDIUM_SIZES
  | Tier.high => HIGH_SIZES

-- blocks = [0]*LANES, followed by marking lane ranges.  markFrom walks the
-- list carrying the absolute lane index; marking is a no-op outside the list,
-- matching the code's explicit 0 <= l < LANES guard for existing obstacles
-- (the candidate's own range always lies inside [0, LANES) because its start
-- is drawn from randint(0, LANES - lane_count + 1)).
def markFrom (s c : ℕ) : ℕ → List Bool → List Bool
  | _, [] => []
  | l, b :: bs => (b || (decide (s ≤ l) && decide (l < s + c))) :: markFrom s c (l + 1) bs

def markRange (blocks : List Bool) (s c : ℕ) : List Bool := markFrom s c 0 blocks

-- Arrival time of a freshly spawned obstacle at the player's x position.
def t_new : ℚ := (SCREEN_W + SPAWN_AHEAD_PIXELS - PLAYER_X) / OBSTACLE_SPEED

-- Mark an existing obstacle's lanes when its arrival time at the player,
-- (o.x - PLAYER_X) / OBSTACLE_SPEED, is within 0.6 s of t_new.
def markIfClose (bl : List Bool) (o : Obstacle) : List Bool :=
  if |((o.x - PLAYER_X) / OBSTACLE_SPEED) - t_new| < 6/10 then
    markRange bl o.lane_start o.lane_count
  else bl

-- Occupancy mask built by one placement trial: lanes of every existing
-- obstacle whose arrival time is within 0.6 s of t_new, then the candidate's
-- own lanes.
def blocksFor (obs : List Obstacle) (lane_count start : ℕ) : List Bool :=
  markRange (obs.foldl markIfClose (List.replicate LANES false)) start lane_count

-- The 8-trial random placement loop; trial i draws start = oracle i % (LANES
-- - lane_count + 1) and accepts as soon as some lane is left unmarked.
def placementAux (obs : List Obstacle) (lane_count : ℕ) (oracle : ℕ → ℕ) :
    ℕ → ℕ → Option ℕ
  | _, 0 => none
  | i, fuel + 1 =>
    let start := oracle i % (LANES - lane_count + 1)
    if false ∈ blocksFor obs lane_count start then some start
    else placementAux obs lane_count oracle (i + 1) fuel

def placementSearch (obs : List Obstacle) (lane_count : ℕ) (oracle : ℕ → ℕ) : Option ℕ :=
  placementAux obs lane_count oracle 0 8

structure GameState where
  om : OMState
  recent_high_count : ℕ
  last_obstacle_near_ms : ℤ
  player_lane : ℕ
  player_last_lane_change_ms : ℤ
deriving DecidableEq, Repr

def initialGameState : GameState :=
  { om := initialOM, recent_high_count := 0, last_obstacle_near_ms := 0,
    player_lane := LANES / 2, player_last_lane_change_ms := 0 }

structure SpawnInput where
  current_ms : ℤ
  ratio : ℚ
  randQuiet : ℚ
  sizeIdx : ℕ
  startOracle : ℕ → ℕ

-- Tier classification with high-streak smoothing.  Returns the chosen tier
-- (none when the quiet 5% roll fails, which in the source is an early return
-- from spawn_logic) together with the new recent_high_count.
def classify (rhc : ℕ) (ratio randQuiet : ℚ) : Option Tier × ℕ :=
  if HIGH_TH ≤ ratio then
    (some (if rhc = 0 then Tier.high else if rhc = 1 then Tier.medium else Tier.low),
     min (rhc + 1) 4)
  else if MEDIUM_TH ≤ ratio then (some Tier.medium, 0)
  else if LOW_TH ≤ ratio then (some Tier.low, 0)
  else if randQuiet < 5/100 then (some Tier.low, 0)
  else (none, rhc)

-- The placement search followed by the spawn when it succeeds (the final
-- `if placed: self.ob_manager.spawn(...)`).
def placeAttempt (g1 : GameState) (lane_count : ℕ) (oracle : ℕ → ℕ) (t : ℤ) : GameState :=
  match placementSearch g1.om.obstacles lane_count oracle with
  | some lane_start => { g1 with om := g1.om.spawn lane_start lane_count t }
  | none => g1

-- The audio-driven part of Game.spawn_logic.  Returns none exactly when the
-- source executes the early return in the quiet region (which also skips the
-- boredom spawn below).
def audioPhase (g : GameState) (inp : SpawnInput) : Option GameState :=
  if MIN_SPAWN_INTERVAL_MS ≤ inp.current_ms - g.om.last_spawn_ms then
    match classify g.recent_high_count inp.ratio inp.randQuiet with
    | (none, _) => none
    | (some t0, rhc1) =>
      let tier := if t0 = Tier.high ∧ inp.current_ms - g.om.last_heavy_ms < HEAVY_COOLDOWN_MS
                  then Tier.medium else t0
      let lane_count := (sizesFor tier).getD (inp.sizeIdx % (sizesFor tier).length) 1
      some (placeAttempt { g with recent_high_count := rhc1 } lane_count inp.startOracle
        inp.current_ms)
  else some g

-- The x shift applied to obstacles that conflict with a boredom spawn:
-- pushed forward by shift_amount = int(OBSTACLE_SPEED * 0.6) = 180 when they
-- are ahead of the player and within 0.4 s of the spawn edge.
def boredomShift (x_pos : ℚ) (o : Obstacle) : Obstacle :=
  if PLAYER_X < o.x ∧ |((o.x - x_pos) / OBSTACLE_SPEED)| < 4/10 then
    { o with x := o.x + 180 }
  else o

-- The boredom / tiny spawn part of Game.spawn_logic.
def boredomSpawn (g : GameState) (current_ms : ℤ) : GameState :=
  let inactive_time := current_ms - g.player_last_lane_change_ms
  let quiet_time := current_ms - g.last_obstacle_near_ms
  if 500 < inactive_time ∧ 400 < quiet_time then
    let x_pos := SCREEN_W + SPAWN_AHEAD_PIXELS
    let shifted := g.om.obstacles.map (boredomShift x_pos)
    let tiny : Obstacle := { lane_start := g.player_lane, lane_count := 1, x := x_pos }
    { g with
      om := { obstacles := shifted ++ [tiny], last_spawn_ms := current_ms,
              last_heavy_ms := g.om.last_heavy_ms },
      player_last_lane_change_ms := current_ms }
  else g

def spawnLogic (g : GameState) (inp : SpawnInput) : GameState :=
  match audioPhase g inp with
  | none => g
  | some g1 => boredomSpawn g1 inp.current_ms

structure RunInput where
  dt : ℚ
  current_ms : ℤ
  ratio : ℚ
  randQuiet : ℚ
  sizeIdx : ℕ
  startOracle : ℕ → ℕ

def RunInput.spawnInput (inp : RunInput) : SpawnInput :=
  ⟨inp.current_ms, inp.ratio, inp.randQuiet, inp.sizeIdx, inp.startOracle⟩

-- One pass of the state-mutating steps of Game.run with no key events (the
-- player stays on its lane): spawn_logic, obstacle movement and pruning, the
-- obstacles-near bookkeeping, and mark_passed_and_count.  Rendering, scoring
-- and the collision test do not feed back into the spawn state.
def runTick (g : GameState) (inp : RunInput) : GameState :=
  let g1 := spawnLogic g inp.spawnInput
  let g2 := { g1 with om := g1.om.updateField inp.dt }
  let near := g2.om.obstacles.any
    (fun o => decide (PLAYER_X < o.x) && decide (o.x < SCREEN_W + 200))
  let g3 := { g2 with
    last_obstacle_near_ms := if near then inp.current_ms else g2.last_obstacle_near_ms }
  { g3 with om := { g3.om with
      obstacles := (mark_passed_and_count (g3.player_lane : ℤ) g3.om.obstacles).2 } }

-- ===================== Helper lemmas =====================

lemma markFrom_length (s c : ℕ) : ∀ (l : ℕ) (bs : List Bool),
    (markFrom s c l bs).length = bs.length := by
  intro l bs
  induction bs generalizing l with
  | nil => rfl
  | cons b bs ih => simp [markFrom, ih]

lemma markRange_length (bs : List Bool) (s c : ℕ) :
    (markRange bs s c).length = bs.length := markFrom_length s c 0 bs

lemma markIfClose_length (bl : List Bool) (o : Obstacle) :
    (markIfClose bl o).length = bl.length := by
  unfold markIfClose
  split
  · exact markRange_length bl o.lane_start o.lane_count
  · rfl

lemma foldl_markIfClose_length (obs : List Obstacle) : ∀ bl : List Bool,
    (obs.foldl markIfClose bl).length = bl.length := by
  induction obs with
  | nil => intro bl; rfl
  | cons o obs ih =>
    intro bl
    simp only [List.foldl_cons]
    rw [ih, markIfClose_length]

lemma blocksFor_length (obs : List Obstacle) (lc st : ℕ) :
    (blocksFor obs lc st).length = LANES := by
  unfold blocksFor
  rw [markRange_length, foldl_markIfClose_length, List.length_replicate]

lemma placementAux_sound (obs : List Obstacle) (lc : ℕ) (oracle : ℕ → ℕ) :
    ∀ (fuel i s : ℕ), placementAux obs lc oracle i fuel = some s →
      false ∈ blocksFor obs lc s := by
  intro fuel
  induction fuel with
  | zero => intro i s h; simp [placementAux] at h
  | succ n ih =>
    intro i s h
    simp only [placementAux] at h
    split at h
    · cases h; assumption
    · exact ih (i + 1) s h

lemma placementAux_exhaust (obs : List Obstacle) (lc : ℕ) (oracle : ℕ → ℕ) :
    ∀ (fuel i : ℕ),
      (∀ j, j < fuel → false ∉ blocksFor obs lc (oracle (i + j) % (LANES - lc + 1))) →
      placementAux obs lc oracle i fuel = none := by
  intro fuel
  induction fuel with
  | zero => intro i _; rfl
  | succ n ih =>
    intro i hfail
    simp only [placementAux]
    split
    · exact absurd (by assumption) (by simpa using hfail 0 (Nat.succ_pos n))
    · exact ih (i + 1) fun j hj => by
        have := hfail (j + 1) (by omega)
        simpa [Nat.add_assoc, Nat.add_comm 1 j] using this

-- ===================== C1 =====================

/-- C1: the energy-driven placement search never accepts a configuration that
blocks all LANES lanes in the same 0.6 s arrival-time slice.  If the 8-trial
search accepts a start lane `s`, then the occupancy mask obtained by marking
the lanes of every existing obstacle whose arrival time is within 0.6 s of the
new obstacle's arrival time and then marking the candidate's own lanes leaves
at least one of the LANES lanes unmarked; and if all 8 trials produce a fully
marked mask, the search returns none and the spawn is skipped. -/
theorem C1_placement_never_blocks_all_lanes
    (obs : List Obstacle) (lane_count : ℕ) (oracle : ℕ → ℕ) :
    (∀ s, placementSearch obs lane_count oracle = some s →
      ∃ l, l < LANES ∧ (blocksFor obs lane_count s).get? l = some false) ∧
    ((∀ i, i < 8 →
        false ∉ blocksFor obs lane_count (oracle i % (LANES - lane_count + 1))) →
      placementSearch obs lane_count oracle = none) := by
  constructor
  · intro s h
    have hmem : false ∈ blocksFor obs lane_count s :=
      placementAux_sound obs lane_count oracle 8 0 s h
    obtain ⟨n, hn⟩ := List.mem_iff_get?.mp hmem
    obtain ⟨hlt, _⟩ := List.get?_eq_some.mp hn
    exact ⟨n, by rwa [blocksFor_length] at hlt, hn⟩
  · intro hfail
    exact placementAux_exhaust obs lane_count oracle 8 0 fun j hj => by
      simpa using hfail j hj

/-- C1 witness: with no existing obstacles and lane_count 1, the first trial
at start 0 is accepted and a free lane indeed remains. -/
theorem C1_witness :
    ∃ l, l < LANES ∧ (blocksFor [] 1 0).get? l = some false :=
  (C1_placement_never_blocks_all_lanes [] 1 (fun _ => 0)).1 0 (by decide)

-- ===================== spawn planner step lemmas =====================

lemma placeAttempt_rhc (g1 : GameState) (lc : ℕ) (oracle : ℕ → ℕ) (t : ℤ) :
    (placeAttempt g1 lc oracle t).recent_high_count = g1.recent_high_count := by
  unfold placeAttempt
  cases placementSearch g1.om.obstacles lc oracle <;> rfl

lemma boredomSpawn_rhc (g : GameState) (t : ℤ) :
    (boredomSpawn g t).recent_high_count = g.recent_high_count := by
  unfold boredomSpawn
  dsimp only
  split <;> rfl

lemma classify_none_snd {rhc : ℕ} {ratio rq : ℚ} {r : ℕ}
    (hc : classify rhc ratio rq = (none, r)) : r = rhc := by
  unfold classify at hc
  split_ifs at hc
  all_goals simp_all

lemma classify_snd_le (rhc : ℕ) (h : rhc ≤ 4) (ratio rq : ℚ) :
    (classify rhc ratio rq).2 ≤ 4 := by
  unfold classify
  split_ifs
  all_goals simp
  all_goals omega

lemma spawnLogic_rhc (g : GameState) (inp : SpawnInput) :
    (spawnLogic g inp).recent_high_count =
      if MIN_SPAWN_INTERVAL_MS ≤ inp.current_ms - g.om.last_spawn_ms then
        (classify g.recent_high_count inp.ratio inp.randQuiet).2
      else g.recent_high_count := by
  unfold spawnLogic audioPhase
  by_cases hgate : MIN_SPAWN_INTERVAL_MS ≤ inp.current_ms - g.om.last_spawn_ms
  · simp only [hgate, if_true]
    rcases hc : classify g.recent_high_count inp.ratio inp.randQuiet with ⟨t?, r⟩
    cases t? with
    | none =>
      simp only [hc]
      exact (classify_none_snd hc).symm
    | some t0 =>
      simp only [hc, boredomSpawn_rhc, placeAttempt_rhc]
  · simp only [hgate, if_false, boredomSpawn_rhc]

-- ===================== C2 =====================

/-- C2 counterexample: after two high-ratio ticks the streak counter is 2; the
third tick has ratio 1, which is below HIGH_TH, yet the tick leaves the
counter at 2 instead of resetting it to 0, because the quiet-region branch
returns early when the 5% roll fails without touching recent_high_count. -/
theorem C2_counterexample :
    (1 : ℚ) < HIGH_TH ∧
    (spawnLogic (spawnLogic initialGameState ⟨0, 22/10, 1/2, 0, fun _ => 0⟩)
        ⟨150, 22/10, 1/2, 0, fun _ => 0⟩).recent_high_count = 2 ∧
    (spawnLogic (spawnLogic (spawnLogic initialGameState ⟨0, 22/10, 1/2, 0, fun _ => 0⟩)
        ⟨150, 22/10, 1/2, 0, fun _ => 0⟩)
        ⟨300, 1, 1/2, 0, fun _ => 0⟩).recent_high_count = 2 := by
  refine ⟨by norm_num [HIGH_TH], by with_unfolding_all decide, by with_unfolding_all decide⟩

/-- C2 amended: recent_high_count never exceeds 4; it is reset to 0 by every
tick that passes the minimum-interval gate and classifies a tier from a ratio
below HIGH_TH (medium, low, or the successful 5% quiet roll); but on ticks
that skip the classification — the interval gate failing, or the quiet region
with a failed 5% roll (the source's early return) — it is left unchanged
rather than reset. -/
theorem C2_streak_bound_and_reset (g : GameState) (inp : SpawnInput)
    (h4 : g.recent_high_count ≤ 4) :
    (spawnLogic g inp).recent_high_count ≤ 4 ∧
    (MIN_SPAWN_INTERVAL_MS ≤ inp.current_ms - g.om.last_spawn_ms →
      inp.ratio < HIGH_TH →
      (LOW_TH ≤ inp.ratio ∨ inp.randQuiet < 5/100) →
      (spawnLogic g inp).recent_high_count = 0) ∧
    ((inp.current_ms - g.om.last_spawn_ms < MIN_SPAWN_INTERVAL_MS ∨
        (inp.ratio < LOW_TH ∧ ¬ inp.randQuiet < 5/100)) →
      (spawnLogic g inp).recent_high_count = g.recent_high_count) := by
  refine ⟨?_, ?_, ?_⟩ <;> rw [spawnLogic_rhc]
  · split
    · exact classify_snd_le g.recent_high_count h4 inp.ratio inp.randQuiet
    · exact h4
  · intro hgate hhigh hq
    rw [if_pos hgate]
    unfold classify
    rw [if_neg (not_le.mpr hhigh)]
    split_ifs with h2 h3 h5
    · rfl
    · rfl
    · rfl
    · rcases hq with hlo | hq5
      · exact absurd hlo h3
      · exact absurd hq5 h5
  · intro hskip
    rcases hskip with hgate | ⟨hlo, hq5⟩
    · rw [if_neg (not_le.mpr hgate)]
    · split
      · unfold classify
        have hm : ¬ MEDIUM_TH ≤ inp.ratio := by
          have : LOW_TH < MEDIUM_TH := by norm_num [LOW_TH, MEDIUM_TH]
          linarith [not_le.mpr hlo, hlo]
        have hh : ¬ HIGH_TH ≤ inp.ratio := by
          have : LOW_TH < HIGH_TH := by norm_num [LOW_TH, HIGH_TH]
          linarith
        rw [if_neg hh, if_neg hm, if_neg (not_le.mpr hlo), if_neg hq5]
      · rfl

/-- C2 witness: a quiet tick with a failed 5% roll leaves the streak counter
of the initial state unchanged. -/
theorem C2_witness :
    (spawnLogic initialGameState ⟨0, 1, 1/2, 0, fun _ => 0⟩).recent_high_count =
      initialGameState.recent_high_count :=
  (C2_streak_bound_and_reset initialGameState ⟨0, 1, 1/2, 0, fun _ => 0⟩ (by decide)).2.2
    (Or.inr ⟨by norm_num [LOW_TH], by norm_num⟩)

-- ===================== C3 =====================

lemma getD_lt_four (l : List ℕ) (hl : ∀ x ∈ l, x < 4) :
    ∀ (i d : ℕ), d < 4 → l.getD i d < 4 := by
  induction l with
  | nil => intro i d hd; simpa [List.getD] using hd
  | cons a l ih =>
    intro i d hd
    cases i with
    | zero => simpa [List.getD_cons_zero] using hl a (by simp)
    | succ j =>
      rw [List.getD_cons_succ]
      exact ih (fun x hx => hl x (by simp [hx])) j d hd

lemma placeAttempt_lastspawn (g1 : GameState) (lc : ℕ) (oracle : ℕ → ℕ) (t : ℤ) :
    (placeAttempt g1 lc oracle t).om.last_spawn_ms = t ∨
    placeAttempt g1 lc oracle t = g1 := by
  unfold placeAttempt
  cases placementSearch g1.om.obstacles lc oracle with
  | none => exact Or.inr rfl
  | some s => exact Or.inl rfl

lemma placeAttempt_obstacles (g1 : GameState) (lc : ℕ) (oracle : ℕ → ℕ) (t : ℤ) :
    (placeAttempt g1 lc oracle t).om.obstacles = g1.om.obstacles ∨
    ∃ s, (placeAttempt g1 lc oracle t).om.obstacles = g1.om.obstacles ++
      [{ lane_start := s, lane_count := lc, x := SCREEN_W + SPAWN_AHEAD_PIXELS }] := by
  unfold placeAttempt
  cases placementSearch g1.om.obstacles lc oracle with
  | none => exact Or.inl rfl
  | some s => exact Or.inr ⟨s, rfl⟩

lemma audioPhase_obstacles_struct (g : GameState) (inp : SpawnInput) (g1 : GameState)
    (hcool : inp.current_ms - g.om.last_heavy_ms < HEAVY_COOLDOWN_MS)
    (h : audioPhase g inp = some g1) :
    g1.om.obstacles = g.om.obstacles ∨
    ∃ ob, ob.lane_count < 4 ∧ g1.om.obstacles = g.om.obstacles ++ [ob] := by
  unfold audioPhase at h
  split at h
  case isFalse =>
    cases h
    exact Or.inl rfl
  case isTrue hgate =>
    rcases hc : classify g.recent_high_count inp.ratio inp.randQuiet with ⟨t?, r⟩
    rw [hc] at h
    cases t? with
    | none => exact absurd h (by simp)
    | some t0 =>
      simp only [Option.some.injEq] at h
      subst h
      set tier := if t0 = Tier.high ∧ inp.current_ms - g.om.last_heavy_ms < HEAVY_COOLDOWN_MS
        then Tier.medium else t0 with htier
      have hnh : tier ≠ Tier.high := by
        rcases t0 with _ | _ | _
        · rw [htier, if_neg (by simp)]; simp
        · rw [htier, if_neg (by simp)]; simp
        · rw [htier, if_pos ⟨rfl, hcool⟩]; simp
      have hlc : (sizesFor tier).getD (inp.sizeIdx % (sizesFor tier).length) 1 < 4 := by
        rcases tier with _ | _ | _
        · exact getD_lt_four LOW_SIZES (by decide) _ 1 (by omega)
        · exact getD_lt_four MEDIUM_SIZES (by decide) _ 1 (by omega)
        · exact absurd rfl hnh
      rcases placeAttempt_obstacles { g with recent_high_count := r } _ inp.startOracle
          inp.current_ms with heq | ⟨s, heq⟩
      · exact Or.inl heq
      · exact Or.inr ⟨_, hlc, heq⟩

lemma boredomShift_lane_count (x : ℚ) (o : Obstacle) :
    (boredomShift x o).lane_count = o.lane_count := by
  unfold boredomShift
  split <;> rfl

lemma boredomSpawn_obstacles_struct (g : GameState) (t : ℤ) :
    (boredomSpawn g t).om.obstacles = g.om.obstacles ∨
    ∃ tiny, tiny.lane_count = 1 ∧
      (boredomSpawn g t).om.obstacles =
        g.om.obstacles.map (boredomShift (SCREEN_W + SPAWN_AHEAD_PIXELS)) ++ [tiny] := by
  unfold boredomSpawn
  dsimp only
  split
  · exact Or.inr ⟨_, rfl, rfl⟩
  · exact Or.inl rfl

lemma get?_map_lane_count (f : Obstacle → Obstacle)
    (hf : ∀ o, (f o).lane_count = o.lane_count) (l : List Obstacle) (j : ℕ) :
    ((l.map f).get? j).map Obstacle.lane_count = (l.get? j).map Obstacle.lane_count := by
  rw [List.get?_map]
  cases l.get? j with
  | none => rfl
  | some o => simp [hf o]

-- The shape shared by every spawn outcome of a tick: the post-tick obstacle
-- list is a prefix P (the pre-existing obstacles, possibly x-shifted but with
-- lane layout intact) followed by the newly placed obstacles T.
lemma c3_shape (L0 P T : List Obstacle) (hlen : P.length = L0.length)
    (hpre : ∀ j, j < L0.length →
      (P.get? j).map Obstacle.lane_count = (L0.get? j).map Obstacle.lane_count)
    (htail : ∀ o ∈ T, o.lane_count < 4) :
    L0.length ≤ (P ++ T).length ∧
    (∀ j, j < L0.length →
      ((P ++ T).get? j).map Obstacle.lane_count =
        (L0.get? j).map Obstacle.lane_count) ∧
    ∀ o ∈ (P ++ T).drop L0.length, o.lane_count < 4 := by
  refine ⟨by simp [List.length_append]; omega, fun j hj => ?_, fun o ho => ?_⟩
  · rw [List.get?_append (by rw [hlen]; exact hj)]
    exact hpre j hj
  · rw [← hlen, List.drop_left] at ho
    exact htail o ho

/-- C3: when fewer than HEAVY_COOLDOWN_MS (600 ms) have elapsed since
lastHeavyTimestamp, the tick never places an obstacle with laneCount ≥ 4: the
post-tick obstacle list keeps every pre-existing obstacle in place (same
index, same laneCount — only x positions may be shifted), and every obstacle
beyond that prefix, i.e. every obstacle the tick created, has laneCount < 4
(the streak-adjusted high tier is downgraded to medium, whose sizes are
{2,3}; boredom obstacles have laneCount 1). -/
theorem C3_heavy_cooldown_no_heavy_spawn (g : GameState) (inp : SpawnInput)
    (hcool : inp.current_ms - g.om.last_heavy_ms < HEAVY_COOLDOWN_MS) :
    g.om.obstacles.length ≤ (spawnLogic g inp).om.obstacles.length ∧
    (∀ j, j < g.om.obstacles.length →
      ((spawnLogic g inp).om.obstacles.get? j).map Obstacle.lane_count =
        (g.om.obstacles.get? j).map Obstacle.lane_count) ∧
    ∀ o ∈ (spawnLogic g inp).om.obstacles.drop g.om.obstacles.length,
      o.lane_count < 4 := by
  unfold spawnLogic
  cases ha : audioPhase g inp with
  | none =>
    refine ⟨le_refl _, fun j hj => rfl, fun o ho => ?_⟩
    rw [List.drop_length] at ho
    simp at ho
  | some g1 =>
    rcases audioPhase_obstacles_struct g inp g1 hcool ha with hA | ⟨ob, hob, hA⟩
    all_goals rcases boredomSpawn_obstacles_struct g1 inp.current_ms with hB | ⟨tiny, htiny, hB⟩
    · -- no energy spawn, no boredom spawn
      rw [hB, hA]
      refine ⟨le_refl _, fun j hj => rfl, fun o ho => ?_⟩
      rw [List.drop_length] at ho
      simp at ho
    · -- no energy spawn, boredom spawn
      rw [hB, hA]
      exact c3_shape g.om.obstacles _ [tiny] (List.length_map _ _)
        (fun j hj => get?_map_lane_count _ (boredomShift_lane_count _) _ j)
        (fun o ho => by rcases List.mem_singleton.mp ho with rfl; omega)
    · -- energy spawn, no boredom spawn
      rw [hB, hA]
      exact c3_shape g.om.obstacles g.om.obstacles [ob] rfl (fun j hj => rfl)
        (fun o ho => by rcases List.mem_singleton.mp ho with rfl; exact hob)
    · -- energy spawn and boredom spawn
      rw [hB, hA, List.map_append, List.append_assoc]
      refine c3_shape g.om.obstacles _ _ (List.length_map _ _)
        (fun j hj => get?_map_lane_count _ (boredomShift_lane_count _) _ j)
        (fun o ho => ?_)
      simp only [List.map_cons, List.map_nil, List.cons_append, List.nil_append,
        List.mem_cons, List.not_mem_nil, or_false] at ho
      rcases ho with rfl | rfl
      · rw [boredomShift_lane_count]
        exact hob
      · omega

def c3g : GameState :=
  { om := ⟨[], -10000, 0⟩, recent_high_count := 0, last_obstacle_near_ms := 100,
    player_lane := 5, player_last_lane_change_ms := 100 }

def c3inp : SpawnInput := ⟨100, 22/10, 1/2, 0, fun _ => 0⟩

set_option maxRecDepth 4000 in
/-- C3 witness: a high-ratio tick 100 ms after a heavy spawn creates exactly
one obstacle, and it has laneCount 2 < 4 (the downgraded medium tier). -/
theorem C3_witness :
    (((spawnLogic c3g c3inp).om.obstacles.drop c3g.om.obstacles.length).getD 0
      default).lane_count < 4 :=
  (C3_heavy_cooldown_no_heavy_spawn c3g c3inp (by decide)).2.2 _
    (by with_unfolding_all decide)

-- ===================== C4 =====================

-- The constant-signal tick inputs used to exercise the spawn interval claim:
-- ratio is always exactly LOW_TH, the player never moves, dt matches the gap
-- between consecutive tick timestamps.
def c4In (t : ℤ) (dt : ℚ) : RunInput :=
  { dt := dt, current_ms := t, ratio := LOW_TH, randQuiet := 1/2, sizeIdx := 0,
    startOracle := fun _ => 0 }

def c4T4 : GameState :=
  runTick (runTick (runTick (runTick initialGameState (c4In 0 (2/125)))
    (c4In 150 (3/20))) (c4In 300 (3/20))) (c4In 450 (3/20))

def c4T5 : GameState := runTick c4T4 (c4In 501 (51/1000))

/-- C4 counterexample: under the constant ratio-equal-to-LOW_TH signal, an
energy-driven spawn happens on the tick at 450 ms (fourth obstacle,
lastSpawnTimestamp 450), and the very next tick at 501 ms inserts a boredom
obstacle (fifth obstacle, lastSpawnTimestamp 501) because boredom spawns are
not gated by the minimum spawn interval: two successive spawns lie 51 ms <
MIN_SPAWN_INTERVAL_MS apart. -/
theorem C4_counterexample :
    c4T4.om.last_spawn_ms = 450 ∧ c4T4.om.obstacles.length = 4 ∧
    c4T5.om.last_spawn_ms = 501 ∧ c4T5.om.obstacles.length = 5 ∧
    (501 : ℤ) - 450 < MIN_SPAWN_INTERVAL_MS := by
  with_unfolding_all decide

/-- C4 amended: the energy-driven pipeline is gated by the minimum spawn
interval — whenever the audio-driven phase changes lastSpawnTimestamp (i.e.
performs an energy-driven spawn), the tick time is at least
MIN_SPAWN_INTERVAL_MS after the previous lastSpawnTimestamp, and the new
lastSpawnTimestamp is the tick time.  Hence two successive energy-driven
spawns are at least 150 ms apart; boredom spawns, however, bypass the gate and
may follow a previous spawn sooner. -/
theorem C4_energy_spawn_interval (g : GameState) (inp : SpawnInput) (g1 : GameState)
    (h : audioPhase g inp = some g1)
    (hchg : g1.om.last_spawn_ms ≠ g.om.last_spawn_ms) :
    g1.om.last_spawn_ms = inp.current_ms ∧
    MIN_SPAWN_INTERVAL_MS ≤ inp.current_ms - g.om.last_spawn_ms := by
  unfold audioPhase at h
  split at h
  case isTrue hgate =>
    rcases hc : classify g.recent_high_count inp.ratio inp.randQuiet with ⟨t?, r⟩
    rw [hc] at h
    cases t? with
    | none => exact absurd h (by simp)
    | some t0 =>
      simp only [Option.some.injEq] at h
      subst h
      rcases placeAttempt_lastspawn { g with recent_high_count := r } _ inp.startOracle
          inp.current_ms with hls | heq
      · exact ⟨hls, hgate⟩
      · rw [heq] at hchg
        exact absurd rfl hchg
  case isFalse =>
    cases h
    exact absurd rfl hchg

def c4wi : SpawnInput := ⟨0, 21/20, 1/2, 0, fun _ => 0⟩

-- The state the audio phase produces from the initial state on the tick at 0
-- with ratio LOW_TH: one lane-0 single-lane obstacle at the spawn edge.
def c4wg : GameState :=
  ⟨⟨[⟨0, 1, 1700, 40, false⟩], 0, -10000⟩, 0, 0, 5, 0⟩

set_option maxRecDepth 4000 in
/-- C4 witness: at tick time 0 from the initial state (lastSpawnTimestamp
-10000) the energy spawn is performed and indeed 0 - (-10000) ≥ 150. -/
theorem C4_witness :
    c4wg.om.last_spawn_ms = (0 : ℤ) ∧
    MIN_SPAWN_INTERVAL_MS ≤ (0 : ℤ) - initialGameState.om.last_spawn_ms :=
  C4_energy_spawn_interval initialGameState c4wi c4wg
    (by with_unfolding_all rfl) (by decide)

-- ===================== C5 =====================

/-- C5: contrary to the claim, constructing the analyzer on an empty sample
buffer FAILS: np.max over the empty array raises ValueError during peak
normalization, before the windowing guard is reached.  The guard itself would
indeed produce a single zero-energy window (numWindows = 1, energy[0] = 0) had
execution reached it, which is what the spec describes. -/
theorem C5_empty_buffer_construction_fails :
    mkAnalyzer 44100 [] 100 = none ∧
    numWindowsOf 0 (samplesPerWindow 44100 100) = 1 ∧
    energyAt [] (samplesPerWindow 44100 100) 0 = 0 := by
  refine ⟨rfl, by decide, ?_⟩
  simp [energyAt, windowSlice]

-- ===================== C6 =====================

lemma baselineAux_length (N : ℕ) : ∀ (rest dq : List ℚ) (cum : ℚ),
    (baselineAux N rest dq cum).length = rest.length := by
  intro rest
  induction rest with
  | nil => intro dq cum; rfl
  | cons e rest ih =>
    intro dq cum
    simp only [baselineAux]
    split
    all_goals simp [ih]

lemma compute_running_baseline_length (N : ℕ) (E : List ℚ) :
    (compute_running_baseline N E).length = E.length := by
  unfold compute_running_baseline
  rw [List.length_map, baselineAux_length]

lemma computeEnergy_length (samples : List ℚ) (W n : ℕ) :
    (computeEnergy samples W n).length = n := by
  unfold computeEnergy
  rw [List.length_map, List.length_range]

lemma normalizeSamples_length (raw s : List ℚ) (h : normalizeSamples raw = some s) :
    s.length = raw.length := by
  cases raw with
  | nil => simp [normalizeSamples] at h
  | cons a l =>
    simp only [normalizeSamples, Option.some.injEq] at h
    rw [← h, List.length_map]

lemma mkAnalyzer_inv (rate : ℕ) (raw : List ℚ) (wms : ℕ) (a : Analyzer)
    (h : mkAnalyzer rate raw wms = some a) :
    a.samples.length = raw.length ∧
    a.samples_per_window = samplesPerWindow rate wms ∧
    samplesPerWindow rate wms ≠ 0 ∧
    a.num_windows = numWindowsOf raw.length (samplesPerWindow rate wms) ∧
    a.energy = computeEnergy a.samples a.samples_per_window a.num_windows ∧
    a.baseline = compute_running_baseline ENERGY_BASELINE_BUFFER a.energy := by
  cases hn : normalizeSamples raw with
  | none => simp [mkAnalyzer, hn] at h
  | some s =>
    have hlen := normalizeSamples_length raw s hn
    by_cases hW : samplesPerWindow rate wms = 0
    · simp [mkAnalyzer, hn, hW] at h
    · simp only [mkAnalyzer, hn, hW, if_false, Option.some.injEq] at h
      subst h
      exact ⟨hlen, rfl, hW, by rw [← hlen], rfl, rfl⟩

lemma ceil_cast_div (n W : ℕ) (hW : 0 < W) :
    ⌈(n : ℚ) / (W : ℚ)⌉ = (((n + W - 1) / W : ℕ) : ℤ) := by
  have hWQ : (0 : ℚ) < (W : ℚ) := by exact_mod_cast hW
  set q := (n + W - 1) / W with hq
  have hkey : W * q + (n + W - 1) % W = n + W - 1 := Nat.div_add_mod _ _
  have hmod : (n + W - 1) % W < W := Nat.mod_lt _ hW
  have hub : n ≤ W * q := by omega
  have hlb : W * q + 1 ≤ n + W := by omega
  have hubQ : (n : ℚ) ≤ (W : ℚ) * (q : ℚ) := by exact_mod_cast hub
  have hlbQ : (W : ℚ) * (q : ℚ) + 1 ≤ (n : ℚ) + (W : ℚ) := by exact_mod_cast hlb
  rw [Int.ceil_eq_iff]
  constructor
  · push_cast
    rw [lt_div_iff hWQ]
    nlinarith
  · push_cast
    rw [div_le_iff hWQ]
    nlinarith

lemma numWindowsOf_cast (len W : ℕ) (hW : 0 < W) :
    (numWindowsOf len W : ℤ) = max 1 ⌈(len : ℚ) / (W : ℚ)⌉ := by
  unfold numWindowsOf
  rw [ceil_cast_div len W hW, Nat.cast_max]
  rfl

lemma windowSlice_get? (samples : List ℚ) (W i j : ℕ) (hj : j < W) :
    (windowSlice samples W i).get? j = samples.get? (i * W + j) := by
  unfold windowSlice
  rw [List.get?_take hj, List.get?_drop]

-- Second definition following the claim's words, for comparison with the
-- code's samplesPerWindow: "W = round(sampleRate · windowMs / 1000)",
-- modelled as rounding half up (Python's round agrees on the 1.5 case used
-- below).
def specSamplesPerWindow (rate wms : ℕ) : ℕ :=
  (⌊(rate * wms : ℚ) / 1000 + 1/2⌋).toNat

/-- C6 counterexample: the claim computes samplesPerWindow by rounding, but
the code truncates.  At sampleRate 15, windowMs 100, and a 3-sample buffer,
the code produces samples_per_window = 1 and numWindows = 3, while the
claim's formula with W = round(15·100/1000) = 2 would give
max(1, ceil(3/2)) = 2 ≠ 3. -/
theorem C6_counterexample :
    (mkAnalyzer 15 [1, 1, 1] 100).map Analyzer.num_windows = some 3 ∧
    specSamplesPerWindow 15 100 = 2 ∧
    numWindowsOf 3 (specSamplesPerWindow 15 100) = 2 ∧
    (mkAnalyzer 15 [1, 1, 1] 100).map Analyzer.num_windows ≠
      some (numWindowsOf 3 (specSamplesPerWindow 15 100)) := by
  refine ⟨by with_unfolding_all decide, by with_unfolding_all decide,
    by with_unfolding_all decide, by with_unfolding_all decide⟩

/-- C6 amended: for every successfully constructed analyzer — construction
requires a nonempty buffer and samplesPerWindow W = floor(sampleRate ·
windowMs / 1000) ≥ 1, the code truncating rather than rounding — the analyzer
produces numWindows = max(1, ceil(len(samples)/W)), window i reads exactly
the samples at positions i·W + j for j < W, and the energy and baseline
sequences both have length numWindows, fixed at construction. -/
theorem C6_windowing (rate : ℕ) (raw : List ℚ) (wms : ℕ) (a : Analyzer)
    (h : mkAnalyzer rate raw wms = some a) :
    a.samples_per_window = rate * wms / 1000 ∧
    (a.num_windows : ℤ) =
      max 1 ⌈(a.samples.length : ℚ) / (a.samples_per_window : ℚ)⌉ ∧
    a.energy.length = a.num_windows ∧
    a.baseline.length = a.num_windows ∧
    (∀ i, i < a.num_windows →
      a.energy.get? i = some (energyAt a.samples a.samples_per_window i)) ∧
    (∀ i j, j < a.samples_per_window →
      (windowSlice a.samples a.samples_per_window i).get? j =
        a.samples.get? (i * a.samples_per_window + j)) := by
  obtain ⟨hlen, hspw, hW0, hnw, hE, hB⟩ := mkAnalyzer_inv rate raw wms a h
  refine ⟨hspw, ?_, ?_, ?_, ?_, ?_⟩
  · rw [hnw, hspw, hlen, numWindowsOf_cast raw.length _ (Nat.pos_of_ne_zero hW0)]
  · rw [hE, computeEnergy_length]
  · rw [hB, compute_running_baseline_length, hE, computeEnergy_length]
  · intro i hi
    rw [hE]
    unfold computeEnergy
    rw [List.get?_map, List.get?_range hi]
    rfl
  · intro i j hj
    exact windowSlice_get? a.samples a.samples_per_window i j hj

def c6wa : Analyzer := ⟨100, 20, [0], 2, 1, [0], [1/1000000000]⟩

/-- C6 witness: the analyzer built from a single zero sample at 20 Hz has
energy sequence of length equal to its single window. -/
theorem C6_witness : c6wa.energy.length = c6wa.num_windows :=
  (C6_windowing 20 [0] 100 c6wa (by with_unfolding_all rfl)).2.2.1

-- ===================== C7 =====================

-- The trailing window energy[max(0, i-N+1) .. i], written with truncated
-- subtraction: take the first i+1 energies and drop all but the last N.
def trailWindow (E : List ℚ) (N i : ℕ) : List ℚ := (E.take (i + 1)).drop (i + 1 - N)

lemma headI_add_sum_tail (l : List ℚ) (hl : l ≠ []) : l.headI + l.tail.sum = l.sum := by
  cases l with
  | nil => exact absurd rfl hl
  | cons a t => simp

lemma trailWindow_cons (d : ℚ) (L : List ℚ) (N k : ℕ) (hk : N ≤ k + 1) :
    trailWindow (d :: L) N (k + 1) = trailWindow L N k := by
  unfold trailWindow
  rw [List.take_succ_cons]
  have h1 : k + 1 + 1 - N = (k + 1 - N) + 1 := by omega
  rw [h1, List.drop_succ_cons]

lemma baselineAux_cons (N : ℕ) (e : ℚ) (rest dq : List ℚ) (cum : ℚ) :
    baselineAux N (e :: rest) dq cum =
      if N < (dq ++ [e]).length then
        ((cum + e) - (dq ++ [e]).headI) / (((dq ++ [e]).tail.length : ℕ) : ℚ) ::
          baselineAux N rest (dq ++ [e]).tail ((cum + e) - (dq ++ [e]).headI)
      else
        (cum + e) / (((dq ++ [e]).length : ℕ) : ℚ) ::
          baselineAux N rest (dq ++ [e]) (cum + e) := rfl

lemma take_append_one (dq : List ℚ) (e : ℚ) (rest : List ℚ) :
    (dq ++ e :: rest).take (dq.length + 1) = dq ++ [e] := by
  have h := @List.take_append ℚ dq (e :: rest) 1
  simpa using h

lemma baselineAux_get? (N : ℕ) (hN : 0 < N) :
    ∀ (rest dq : List ℚ) (i : ℕ), dq.length ≤ N → i < rest.length →
      (baselineAux N rest dq dq.sum).get? i =
        some ((trailWindow (dq ++ rest) N (dq.length + i)).sum /
          ((trailWindow (dq ++ rest) N (dq.length + i)).length : ℚ)) := by
  intro rest
  induction rest with
  | nil => intro dq i _ hi; simp at hi
  | cons e rest ih =>
    intro dq i hdq hi
    have hsum1 : (dq ++ [e]).sum = dq.sum + e := by simp
    by_cases hpop : N < (dq ++ [e]).length
    · -- the deque exceeds N and is popped from the front
      have hlen : dq.length = N := by
        simp only [List.length_append, List.length_singleton] at hpop
        omega
      have hcum : dq.sum + e - (dq ++ [e]).headI = (dq ++ [e]).tail.sum := by
        have h := headI_add_sum_tail (dq ++ [e]) (by simp)
        rw [hsum1] at h
        linarith
      have htlen : (dq ++ [e]).tail.length = N := by
        simp [hlen]
      rw [baselineAux_cons, if_pos hpop]
      cases i with
      | zero =>
        have htr : trailWindow (dq ++ e :: rest) N (dq.length + 0) = (dq ++ [e]).tail := by
          unfold trailWindow
          rw [Nat.add_zero, take_append_one, hlen]
          have h1 : N + 1 - N = 1 := by omega
          rw [h1, List.drop_one]
        rw [htr, List.get?_cons_zero, hcum]
      | succ j =>
        rw [List.get?_cons_succ, hcum]
        have hj : j < rest.length := by simpa using hi
        have hres := ih (dq ++ [e]).tail j (by rw [htlen]) hj
        rcases dq with _ | ⟨d0, dq0⟩
        · simp at hlen
          omega
        · have he1 : ((d0 :: dq0) ++ [e]).tail = dq0 ++ [e] := by simp
          have he2 : (dq0 ++ [e]) ++ rest = dq0 ++ e :: rest := by simp
          have hlen0 : dq0.length + 1 = N := by simpa using hlen
          rw [he1, he2] at hres
          rw [he1, hres]
          have htr : trailWindow (dq0 ++ e :: rest) N ((dq0 ++ [e]).length + j) =
              trailWindow ((d0 :: dq0) ++ e :: rest) N ((d0 :: dq0).length + (j + 1)) := by
            have hc : (d0 :: dq0) ++ e :: rest = d0 :: (dq0 ++ e :: rest) := by simp
            have hidx : (d0 :: dq0).length + (j + 1) = (dq0.length + 1 + j) + 1 := by
              simp
              omega
            rw [hc, hidx, trailWindow_cons d0 _ N _ (by omega)]
            congr 1
            simp
          rw [htr]
    · -- the deque still fits within N
      have hlen1 : dq.length + 1 ≤ N := by
        simp only [List.length_append, List.length_singleton] at hpop
        omega
      rw [baselineAux_cons, if_neg hpop]
      cases i with
      | zero =>
        have htr : trailWindow (dq ++ e :: rest) N (dq.length + 0) = dq ++ [e] := by
          unfold trailWindow
          rw [Nat.add_zero, take_append_one, Nat.sub_eq_zero_of_le hlen1, List.drop_zero]
        rw [htr, List.get?_cons_zero, hsum1]
      | succ j =>
        rw [List.get?_cons_succ]
        have hj : j < rest.length := by simpa using hi
        have hres := ih (dq ++ [e]) j (by simpa using hlen1) hj
        rw [hsum1] at hres
        have he2 : (dq ++ [e]) ++ rest = dq ++ e :: rest := by simp
        have hidx : (dq ++ [e]).length + j = dq.length + (j + 1) := by
          simp
          omega
        rw [he2, hidx] at hres
        exact hres

lemma compute_running_baseline_get? (N : ℕ) (hN : 0 < N) (E : List ℚ) (i : ℕ)
    (hi : i < E.length) :
    (compute_running_baseline N E).get? i =
      some ((trailWindow E N i).sum / ((trailWindow E N i).length : ℚ) + EPS) := by
  unfold compute_running_baseline
  rw [List.get?_map]
  have h := baselineAux_get? N hN E [] i (by simp) hi
  rw [List.sum_nil] at h
  simp only [List.nil_append, List.length_nil, Nat.zero_add] at h
  rw [h]
  rfl

/-- C7: for every window index i, baseline[i] equals the arithmetic mean of
the causal trailing window energy[max(0, i-N+1) .. i] (at most N =
ENERGY_BASELINE_BUFFER entries) plus epsilon 1e-9; in particular when N ≥
numWindows it is the running mean of all energies from window 0 through i,
plus epsilon. -/
theorem C7_baseline_trailing_mean (E : List ℚ) (i : ℕ) (hi : i < E.length) :
    (compute_running_baseline ENERGY_BASELINE_BUFFER E).get? i =
      some ((trailWindow E ENERGY_BASELINE_BUFFER i).sum /
        ((trailWindow E ENERGY_BASELINE_BUFFER i).length : ℚ) + EPS) ∧
    (E.length ≤ ENERGY_BASELINE_BUFFER →
      (compute_running_baseline ENERGY_BASELINE_BUFFER E).get? i =
        some ((E.take (i + 1)).sum / ((i : ℚ) + 1) + EPS)) := by
  have hN : 0 < ENERGY_BASELINE_BUFFER := by decide
  refine ⟨compute_running_baseline_get? _ hN E i hi, fun hle => ?_⟩
  rw [compute_running_baseline_get? _ hN E i hi]
  have h2 : trailWindow E ENERGY_BASELINE_BUFFER i = E.take (i + 1) := by
    unfold trailWindow
    have h1 : i + 1 - ENERGY_BASELINE_BUFFER = 0 := by
      unfold ENERGY_BASELINE_BUFFER at *
      omega
    rw [h1, List.drop_zero]
  have h3 : ((E.take (i + 1)).length : ℚ) = (i : ℚ) + 1 := by
    rw [List.length_take, min_eq_left (by omega)]
    push_cast
    ring
  rw [h2, h3]

/-- C7 witness: on the energy sequence [1, 2, 3] with N = 50 ≥ 3, the
baseline at window 2 is the running mean (1+2+3)/3 = 2 plus epsilon. -/
theorem C7_witness :
    (compute_running_baseline ENERGY_BASELINE_BUFFER [1, 2, 3]).get? 2 =
      some (2 + EPS) := by
  have h := (C7_baseline_trailing_mean [1, 2, 3] 2 (by decide)).2 (by decide)
  rw [h]
  norm_num

-- ===================== C8 =====================

lemma mark_passed_crossed (pl : ℤ) (obs : List Obstacle) :
    ∀ o ∈ (mark_passed_and_count pl obs).2, o.x + o.width < PLAYER_X → o.passed = true := by
  induction obs with
  | nil => intro o ho; simp [mark_passed_and_count] at ho
  | cons a rest ih =>
    intro o ho hx
    simp only [mark_passed_and_count] at ho
    split at ho
    case isTrue h1 =>
      rcases List.mem_cons.mp ho with rfl | hr
      · rfl
      · exact ih o hr hx
    case isFalse h1 =>
      rcases List.mem_cons.mp ho with rfl | hr
      · cases hp : o.passed
        · exact absurd ⟨hp, hx⟩ h1
        · rfl
      · exact ih o hr hx

lemma mark_passed_count (pl : ℤ) (obs : List Obstacle) :
    (mark_passed_and_count pl obs).1 = (obs.filter (fun o =>
      !o.passed && decide (o.x + o.width < PLAYER_X) && decide (laneDist pl o ≤ 1))).length := by
  induction obs with
  | nil => rfl
  | cons a rest ih =>
    simp only [mark_passed_and_count]
    by_cases h1 : a.passed = false ∧ a.x + a.width < PLAYER_X
    · rw [if_pos h1]
      by_cases h2 : laneDist pl a ≤ 1
      · rw [if_pos h2]
        rw [List.filter_cons_of_pos (by simp [h1.1, h1.2, h2])]
        simp [ih]
        omega
      · rw [if_neg h2]
        rw [List.filter_cons_of_neg (by simp [h2])]
        simp [ih]
    · rw [if_neg h1]
      rw [List.filter_cons_of_neg (by
        simp only [Bool.and_eq_true, Bool.not_eq_true', decide_eq_true_eq]
        rintro ⟨⟨hp, hx⟩, _⟩
        exact h1 ⟨hp, hx⟩)]
      exact ih

lemma mark_passed_second (pl pl2 : ℤ) (obs : List Obstacle) :
    (mark_passed_and_count pl2 (mark_passed_and_count pl obs).2).1 = 0 := by
  rw [mark_passed_count, List.length_eq_zero, List.filter_eq_nil]
  intro o ho
  simp only [Bool.and_eq_true, Bool.not_eq_true', decide_eq_true_eq]
  rintro ⟨⟨hp, hx⟩, _⟩
  exact absurd (mark_passed_crossed pl obs o ho hx) (by rw [hp]; simp)

-- The end-to-end example obstacle: spawned at laneStart 4, laneCount 2, and
-- advanced with eleven dt = 0.5 s steps until x + width = 90 < PLAYER_X.
def c8ob : Obstacle :=
  (fun o => Obstacle.update o (1/2))^[11]
    { lane_start := 4, lane_count := 2, x := SCREEN_W + SPAWN_AHEAD_PIXELS }

/-- C8: consumePassed marks every not-yet-passed obstacle whose trailing edge
has crossed the player's x as passed; it counts exactly the obstacles that
were unpassed, crossed, and within 1 lane of the player (distance 0 inside
the span); an immediate second call returns 0 for any player lane; and on the
concrete example (LANES = 10, PLAYER_X = 100, laneStart 4, laneCount 2,
advanced past the player) playerLane 5 yields 1 then 0, and playerLane 8
yields 0. -/
theorem C8_consume_passed (pl : ℤ) (obs : List Obstacle) :
    (∀ o ∈ (mark_passed_and_count pl obs).2,
      o.x + o.width < PLAYER_X → o.passed = true) ∧
    (mark_passed_and_count pl obs).1 = (obs.filter (fun o =>
      !o.passed && decide (o.x + o.width < PLAYER_X) &&
        decide (laneDist pl o ≤ 1))).length ∧
    (∀ pl2, (mark_passed_and_count pl2 (mark_passed_and_count pl obs).2).1 = 0) ∧
    ((mark_passed_and_count 5 [c8ob]).1 = 1 ∧
      (mark_passed_and_count 5 (mark_passed_and_count 5 [c8ob]).2).1 = 0 ∧
      (mark_passed_and_count 8 [c8ob]).1 = 0) := by
  refine ⟨mark_passed_crossed pl obs, mark_passed_count pl obs,
    fun pl2 => mark_passed_second pl pl2 obs, ?_, ?_, ?_⟩
  · with_unfolding_all decide
  · with_unfolding_all decide
  · with_unfolding_all decide

/-- C8 witness: an immediate second consumePassed call on the example
obstacle counts nothing. -/
theorem C8_witness :
    (mark_passed_and_count 7 (mark_passed_and_count 3 [c8ob]).2).1 = 0 :=
  (C8_consume_passed 3 [c8ob]).2.2.1 7

-- ===================== C9 =====================

lemma truncQ_mono {a b : ℚ} (h : a ≤ b) : truncQ a ≤ truncQ b := by
  unfold truncQ
  split_ifs with ha hb hb2
  · exact Int.floor_le_floor h
  · exact absurd (le_trans ha h) hb
  · have h1 : ⌈a⌉ ≤ 0 := Int.ceil_le.mpr (by exact_mod_cast le_of_lt (not_le.mp ha))
    have h2 : (0:ℤ) ≤ ⌊b⌋ := Int.le_floor.mpr (by exact_mod_cast hb2)
    omega
  · exact Int.ceil_le_ceil h

/-- C9: get_window_index_for_ms is monotone non-decreasing in the millisecond
input, and its result always lies in [0, numWindows - 1], including for
negative inputs and inputs beyond the end of the track. -/
theorem C9_window_index_clamped_monotone (rate : ℕ) (raw : List ℚ) (wms : ℕ)
    (a : Analyzer) (h : mkAnalyzer rate raw wms = some a) :
    (∀ ms1 ms2 : ℚ, ms1 ≤ ms2 →
      get_window_index_for_ms a ms1 ≤ get_window_index_for_ms a ms2) ∧
    (∀ ms : ℚ, 0 ≤ get_window_index_for_ms a ms ∧
      get_window_index_for_ms a ms ≤ (a.num_windows : ℤ) - 1) := by
  have hn : 1 ≤ a.num_windows := by
    obtain ⟨_, _, _, hnw, _, _⟩ := mkAnalyzer_inv rate raw wms a h
    rw [hnw]
    exact le_max_left 1 _
  constructor
  · intro ms1 ms2 hms
    unfold get_window_index_for_ms clamp
    have hdiv : ms1 / (a.window_ms : ℚ) ≤ ms2 / (a.window_ms : ℚ) := by
      rcases eq_or_lt_of_le (Nat.cast_nonneg a.window_ms : (0:ℚ) ≤ _) with he | hpos
      · rw [← he, div_zero, div_zero]
      · exact (div_le_div_right hpos).mpr hms
    exact max_le_max le_rfl (min_le_min le_rfl (truncQ_mono hdiv))
  · intro ms
    unfold get_window_index_for_ms clamp
    refine ⟨le_max_left 0 _, max_le (by omega) (min_le_left _ _)⟩

/-- C9 witness: on a one-window analyzer, the index at -5 ms is clamped into
[0, 0], and monotonicity holds from -5 ms to 1000000 ms. -/
theorem C9_witness :
    (0 ≤ get_window_index_for_ms c6wa (-5) ∧
      get_window_index_for_ms c6wa (-5) ≤ (c6wa.num_windows : ℤ) - 1) ∧
    get_window_index_for_ms c6wa (-5) ≤ get_window_index_for_ms c6wa 1000000 :=
  ⟨(C9_window_index_clamped_monotone 20 [0] 100 c6wa (by with_unfolding_all rfl)).2 (-5),
   (C9_window_index_clamped_monotone 20 [0] 100 c6wa
      (by with_unfolding_all rfl)).1 (-5) 1000000 (by norm_num)⟩

-- ===================== C10 =====================

lemma energyAt_nonneg (samples : List ℚ) (W i : ℕ) : 0 ≤ energyAt samples W i := by
  unfold energyAt
  apply div_nonneg
  · apply List.sum_nonneg
    intro x hx
    simp only [List.mem_map] at hx
    obtain ⟨s, _, rfl⟩ := hx
    exact mul_self_nonneg s
  · have h1 : (0:ℚ) ≤ ((windowSlice samples W i).length : ℚ) := Nat.cast_nonneg _
    have h2 : (0:ℚ) < EPS := by norm_num [EPS]
    linarith

/-- C10: for every successfully constructed analyzer and every window index,
the baseline entry is strictly positive (window energies are nonnegative and
epsilon = 1e-9 is added), so the spawn planner's ratio = energy[idx] /
baseline[idx] never divides by zero. -/
theorem C10_baseline_positive (rate : ℕ) (raw : List ℚ) (wms : ℕ) (a : Analyzer)
    (h : mkAnalyzer rate raw wms = some a) :
    ∀ i, i < a.num_windows → 0 < a.baseline.getD i 0 := by
  obtain ⟨hlen, hspw, hW0, hnw, hE, hB⟩ := mkAnalyzer_inv rate raw wms a h
  intro i hi
  have hiE : i < a.energy.length := by
    rw [hE, computeEnergy_length]
    exact hi
  have hget := compute_running_baseline_get? ENERGY_BASELINE_BUFFER (by decide) a.energy i hiE
  rw [hB, List.getD_eq_getD_get?, hget]
  simp only [Option.getD_some]
  have hnn : 0 ≤ (trailWindow a.energy ENERGY_BASELINE_BUFFER i).sum /
      ((trailWindow a.energy ENERGY_BASELINE_BUFFER i).length : ℚ) := by
    apply div_nonneg
    · apply List.sum_nonneg
      intro x hx
      have hxE : x ∈ a.energy := List.mem_of_mem_take (List.mem_of_mem_drop hx)
      rw [hE] at hxE
      unfold computeEnergy at hxE
      simp only [List.mem_map] at hxE
      obtain ⟨j, _, rfl⟩ := hxE
      exact energyAt_nonneg _ _ _
    · exact Nat.cast_nonneg _
  have hE0 : (0:ℚ) < EPS := by norm_num [EPS]
  linarith

/-- C10 witness: the one-window analyzer built from a single zero sample has
a strictly positive baseline entry. -/
theorem C10_witness : 0 < c6wa.baseline.getD 0 0 :=
  C10_baseline_positive 20 [0] 100 c6wa (by with_unfolding_all rfl) 0 (by decide)

end MusicDodge
